import Mathlib

/-
Verification of the environment-provisioning module (src/mixins/virtualenv.py,
class VirtualenvMixin) against its natural-language specification.

Modelling conventions:
- Python text is modelled as lists of characters (`Str`), so that every
  definition is executable in the kernel.  The character-level helpers below
  (strip, startsWith, split on the `==` separator, splitlines) reproduce the
  exact Python string primitives the source uses, restricted to the newline
  conventions the source data actually has.
- Python dicts of strings are association lists with Python insertion
  semantics: inserting an existing key overwrites in place, a fresh key is
  appended.
- `self.fatal(...)` is modelled as an error / `none` result: it aborts the
  whole operation and returns nothing.
- External collaborators that are not part of this repository (the process
  runner, the retry helper, `query_exe`, the Proxxy mirror resolver) are
  modelled from the specification; each such definition carries a doc comment
  saying so.
-/

namespace Virtualenv

/-- Text is a list of characters, the kernel-executable model of a Python
string. -/
abbrev Str := List Char

/-- Conversion from a Lean string literal to the character-list model. -/
def chars (s : String) : Str := s.data

/-- Python `str.strip` helper: drop leading whitespace characters. -/
def dropLeadingWs : Str → Str
  | [] => []
  | c :: cs => if c.isWhitespace then dropLeadingWs cs else c :: cs

/-- Python `line.strip()`: remove leading and trailing whitespace. -/
def strip (s : Str) : Str :=
  ((dropLeadingWs s).reverse |> dropLeadingWs).reverse

/-- Python `line.startswith(p)`. -/
def startsWith (p s : Str) : Bool := p.isPrefixOf s

/-- Python `line.split('==', 1)` when `'==' in line`: split at the first
(leftmost, non-overlapping) occurrence of the two-character separator `==`,
returning the text before and after it; `none` when the separator does not
occur, which is exactly Python `'==' not in line`. -/
def splitEqEqOnce : Str → Option (Str × Str)
  | [] => none
  | '=' :: '=' :: rest => some ([], rest)
  | c :: cs => (splitEqEqOnce cs).map (fun p => (c :: p.1, p.2))

/-- Python `line.count('==')`: number of non-overlapping occurrences of the
separator `==`.  Used to state claims about lines with more than one
separator. -/
def countEqEq : Str → Nat
  | [] => 0
  | '=' :: '=' :: rest => countEqEq rest + 1
  | _ :: cs => countEqEq cs

/-- Python `text.splitlines()` restricted to newline-separated text: split on
each newline character, with no empty trailing line when the text ends in a
newline, and no lines at all for empty text. -/
def splitlinesGo (cur : Str) : Str → List Str
  | [] => [cur.reverse]
  | c :: cs =>
      if c = '\n' then
        cur.reverse :: (match cs with
          | [] => []
          | _ :: _ => splitlinesGo [] cs)
      else splitlinesGo (c :: cur) cs

/-- Python `text.splitlines()` (newline-only form; the freeze output the
source parses is newline separated). -/
def splitlines : Str → List Str
  | [] => []
  | c :: cs => splitlinesGo [] (c :: cs)

/-- Python dict over string keys, as an insertion-ordered association list. -/
abbrev Dict := List (Str × Str)

/-- Python `d[k] = v`: overwrite in place when the key exists, append
otherwise. -/
def dictInsert (k v : Str) : Dict → Dict
  | [] => [(k, v)]
  | (k2, v2) :: rest =>
      if k2 = k then (k2, v) :: rest else (k2, v2) :: dictInsert k v rest

/-- Line-by-line parsing loop of `package_versions`
(src/mixins/virtualenv.py lines 89-101): strip each line, skip empty lines,
skip lines beginning with `-`, abort fatally (`none`) when a remaining line
has no `==` separator, otherwise split at the first `==` and store the
(package, version) pair in the accumulated dict. -/
def parseFreezeLines : List Str → Dict → Option Dict
  | [], packages => some packages
  | l :: rest, packages =>
      let line := strip l
      if line = [] then parseFreezeLines rest packages
      else if startsWith (chars "-") line then parseFreezeLines rest packages
      else
        match splitEqEqOnce line with
        | none => none
        | some pv => parseFreezeLines rest (dictInsert pv.1 pv.2 packages)

/-- Parsing part of `package_versions` (src/mixins/virtualenv.py lines
72-108), applied to a given freeze-output text: returns the dict of
package-name to version, or `none` when a malformed line makes the whole
query abort via `self.fatal`. -/
def package_versions (pip_freeze_output : Str) : Option Dict :=
  parseFreezeLines (splitlines pip_freeze_output) []

/-- Python `s.lower()` (ASCII case folding, which is all the source data
uses). -/
def lowerStr (s : Str) : Str := s.map Char.toLower

/-- Model of `is_python_package_installed` (src/mixins/virtualenv.py lines
110-115) applied to the freeze output the inner `package_versions` call
parses: the lower-cased queried name is compared against the lower-cased
keys. -/
def is_python_package_installed (pip_freeze_output package_name : Str) :
    Option Bool :=
  (package_versions pip_freeze_output).map
    (fun packages =>
      (packages.map (fun p => lowerStr p.1)).contains (lowerStr package_name))

/-- Classification used by the claims: a line the parser skips or accepts
(blank, `-`-prefixed, or containing a `==` separator); any other line is the
fatal case. -/
def lineOk (l : Str) : Bool :=
  strip l = [] || startsWith (chars "-") (strip l) ||
    (splitEqEqOnce (strip l)).isSome

/-- Well-formed `name==version` record line: non-blank after stripping, not
`-`-prefixed, and containing the separator. -/
def isWfLine (l : Str) : Bool :=
  !decide (strip l = []) && !startsWith (chars "-") (strip l) &&
    (splitEqEqOnce (strip l)).isSome

/-- The (name, version) pair a well-formed line contributes. -/
def linePair (l : Str) : Str × Str := (splitEqEqOnce (strip l)).getD ([], [])

/-- The pairs contributed by the well-formed lines of a line list, in
order. -/
def wfPairs (ls : List Str) : List (Str × Str) :=
  (ls.filter isWfLine).map linePair

/-- Dict obtained by inserting a pair list in order into an empty dict. -/
def buildDict (ps : List (Str × Str)) : Dict :=
  ps.foldl (fun d p => dictInsert p.1 p.2 d) []

/-- Inserting a fresh key appends the pair at the end of the dict. -/
theorem dictInsert_fresh (k v : Str) (d : Dict)
    (h : k ∉ d.map Prod.fst) : dictInsert k v d = d ++ [(k, v)] := by
  induction d with
  | nil => rfl
  | cons p rest ih =>
      cases p with
      | mk k2 v2 =>
          have hk : ¬ k2 = k := by
            intro hkk
            exact h (by simp [hkk])
          have hrest : k ∉ rest.map Prod.fst := by
            intro hm
            exact h (by simp [hm])
          simp only [dictInsert, if_neg hk, List.cons_append, List.cons.injEq,
            true_and]
          exact ih hrest

/-- Keys after an insertion: unchanged when the key was present, the key
appended when it was fresh. -/
theorem dictInsert_keys (k v : Str) (d : Dict) :
    (dictInsert k v d).map Prod.fst =
      if k ∈ d.map Prod.fst then d.map Prod.fst
      else d.map Prod.fst ++ [k] := by
  induction d with
  | nil => simp [dictInsert]
  | cons p rest ih =>
      cases p with
      | mk k2 v2 =>
          by_cases hk : k2 = k
          · subst hk
            simp [dictInsert, List.mem_cons]
          · have hkk : ¬ k = k2 := fun hkk => hk hkk.symm
            simp only [dictInsert, if_neg hk, List.map_cons, ih]
            by_cases hm : k ∈ rest.map Prod.fst
            · simp [hm, List.mem_cons, hkk]
            · simp [hm, List.mem_cons, hkk]

/-- Insertion preserves distinctness of the stored keys. -/
theorem dictInsert_nodup (k v : Str) (d : Dict)
    (h : (d.map Prod.fst).Nodup) :
    ((dictInsert k v d).map Prod.fst).Nodup := by
  rw [dictInsert_keys]
  by_cases hm : k ∈ d.map Prod.fst
  · simpa [hm] using h
  · simp only [if_neg hm]
    refine List.Nodup.append h (List.nodup_singleton k) ?_
    intro a ha hb
    simp only [List.mem_singleton] at hb
    subst hb
    exact hm ha

/-- Folding distinct-keyed pairs into a dict just appends them. -/
theorem foldl_dictInsert_nodup (ps : List (Str × Str)) :
    ∀ acc : Dict, ((acc.map Prod.fst) ++ (ps.map Prod.fst)).Nodup →
      ps.foldl (fun d p => dictInsert p.1 p.2 d) acc = acc ++ ps := by
  induction ps with
  | nil => intro acc _; simp
  | cons p rest ih =>
      intro acc h
      have hfresh : p.1 ∉ acc.map Prod.fst := by
        have hd := (List.nodup_append.mp h).2.2
        intro hm
        exact hd hm (by simp)
      have hstep : dictInsert p.1 p.2 acc = acc ++ [p] :=
        dictInsert_fresh p.1 p.2 acc hfresh
      have hnext :
          (((acc ++ [p]).map Prod.fst) ++ (rest.map Prod.fst)).Nodup := by
        simpa [List.map_append, List.append_assoc] using h
      calc (p :: rest).foldl (fun d q => dictInsert q.1 q.2 d) acc
          = rest.foldl (fun d q => dictInsert q.1 q.2 d) (acc ++ [p]) := by
            simp [List.foldl_cons, hstep]
        _ = (acc ++ [p]) ++ rest := ih (acc ++ [p]) hnext
        _ = acc ++ (p :: rest) := by simp

/-- Dicts built from pairs with distinct names are those pair lists
themselves. -/
theorem buildDict_nodup (ps : List (Str × Str))
    (h : (ps.map Prod.fst).Nodup) : buildDict ps = ps := by
  simpa [buildDict] using foldl_dictInsert_nodup ps [] (by simpa using h)

/-- When every line is blank, `-`-prefixed or has a separator, the parsing
loop succeeds and folds exactly the well-formed lines into the accumulator. -/
theorem parseFreezeLines_all_ok (ls : List Str) :
    ∀ acc : Dict, (∀ l ∈ ls, lineOk l = true) →
      parseFreezeLines ls acc =
        some ((wfPairs ls).foldl (fun d p => dictInsert p.1 p.2 d) acc) := by
  induction ls with
  | nil => intro acc _; simp [parseFreezeLines, wfPairs]
  | cons l rest ih =>
      intro acc h
      have hl : lineOk l = true := h l (by simp)
      have hrest : ∀ x ∈ rest, lineOk x = true := fun x hx => h x (by simp [hx])
      by_cases h1 : strip l = []
      · have hwf : isWfLine l = false := by simp [isWfLine, h1]
        simp only [parseFreezeLines, if_pos h1]
        rw [ih acc hrest]
        simp [wfPairs, List.filter_cons, hwf]
      · by_cases h2 : startsWith (chars "-") (strip l) = true
        · have hwf : isWfLine l = false := by simp [isWfLine, h2]
          simp only [parseFreezeLines, if_neg h1, if_pos h2]
          rw [ih acc hrest]
          simp [wfPairs, List.filter_cons, hwf]
        · have hsep : (splitEqEqOnce (strip l)).isSome = true := by
            have := hl
            simp only [lineOk, Bool.or_eq_true, decide_eq_true_eq] at this
            rcases this with (h1' | h2') | h3'
            · exact absurd h1' h1
            · exact absurd h2' h2
            · exact h3'
          obtain ⟨pv, hpv⟩ := Option.isSome_iff_exists.mp hsep
          have hwf : isWfLine l = true := by
            simp [isWfLine, h1, h2, hpv]
          have hpair : linePair l = pv := by simp [linePair, hpv]
          simp only [parseFreezeLines, if_neg h1, if_neg h2, hpv]
          rw [ih (dictInsert pv.1 pv.2 acc) hrest]
          simp [wfPairs, List.filter_cons, hwf, hpair]

/-- A line that is neither blank, `-`-prefixed, nor separator-bearing makes
the whole parsing loop abort, whatever the accumulator holds. -/
theorem parseFreezeLines_fatal (ls : List Str) :
    ∀ acc : Dict, (∃ l ∈ ls, lineOk l = false) →
      parseFreezeLines ls acc = none := by
  induction ls with
  | nil => intro acc h; simp at h
  | cons l rest ih =>
      intro acc h
      by_cases h1 : strip l = []
      · have hrest : ∃ x ∈ rest, lineOk x = false := by
          rcases h with ⟨x, hx, hbad⟩
          rcases List.mem_cons.mp hx with hx1 | hx2
          · exfalso
            rw [hx1] at hbad
            simp [lineOk, h1] at hbad
          · exact ⟨x, hx2, hbad⟩
        simp only [parseFreezeLines, if_pos h1]
        exact ih acc hrest
      · by_cases h2 : startsWith (chars "-") (strip l) = true
        · have hrest : ∃ x ∈ rest, lineOk x = false := by
            rcases h with ⟨x, hx, hbad⟩
            rcases List.mem_cons.mp hx with hx1 | hx2
            · exfalso
              rw [hx1] at hbad
              simp [lineOk, h2] at hbad
            · exact ⟨x, hx2, hbad⟩
          simp only [parseFreezeLines, if_neg h1, if_pos h2]
          exact ih acc hrest
        · match hpv : splitEqEqOnce (strip l) with
          | none => simp [parseFreezeLines, if_neg h1, if_neg h2, hpv]
          | some pv =>
              have hrest : ∃ x ∈ rest, lineOk x = false := by
                rcases h with ⟨x, hx, hbad⟩
                rcases List.mem_cons.mp hx with hx1 | hx2
                · exfalso
                  rw [hx1] at hbad
                  simp [lineOk, hpv] at hbad
                · exact ⟨x, hx2, hbad⟩
              simp only [parseFreezeLines, if_neg h1, if_neg h2, hpv]
              exact ih _ hrest

/-- Successful parses have distinct (case-preserved) keys, the dict
invariant. -/
theorem parseFreezeLines_keys_nodup (ls : List Str) :
    ∀ acc d : Dict, parseFreezeLines ls acc = some d →
      (acc.map Prod.fst).Nodup → (d.map Prod.fst).Nodup := by
  induction ls with
  | nil =>
      intro acc d h hacc
      simp only [parseFreezeLines, Option.some.injEq] at h
      exact h ▸ hacc
  | cons l rest ih =>
      intro acc d h hacc
      by_cases h1 : strip l = []
      · simp only [parseFreezeLines, if_pos h1] at h
        exact ih acc d h hacc
      · by_cases h2 : startsWith (chars "-") (strip l) = true
        · simp only [parseFreezeLines, if_neg h1, if_pos h2] at h
          exact ih acc d h hacc
        · match hpv : splitEqEqOnce (strip l) with
          | none => simp [parseFreezeLines, if_neg h1, if_neg h2, hpv] at h
          | some pv =>
              simp only [parseFreezeLines, if_neg h1, if_neg h2, hpv] at h
              exact ih _ d h (dictInsert_nodup pv.1 pv.2 acc hacc)

/-- C1 (counterexample): the claim requires every accepted line to have
exactly one `==` separator, but the source only requires at least one and
splits at the first occurrence: the line `a==b==c` has two separators, is
neither blank nor `-`-prefixed, and is accepted as the pair
(`a`, `b==c`) instead of aborting the query. -/
theorem package_versions_two_separators_accepted :
    countEqEq (chars "a==b==c") = 2 ∧
    strip (chars "a==b==c") ≠ [] ∧
    startsWith (chars "-") (strip (chars "a==b==c")) = false ∧
    package_versions (chars "a==b==c") =
      some [(chars "a", chars "b==c")] := by decide

/-- C1 (amended): `package_versions` processes the freeze output line by
line after trimming whitespace; empty lines and lines beginning with `-` are
skipped; if any other line lacks a `==` separator the whole query aborts
fatally with nothing returned; every remaining line has at least one `==`
separator and is split at the first occurrence into a (name, version) pair,
the results being collected into the returned dict. -/
theorem package_versions_line_rules (t : Str) :
    ((∃ l ∈ splitlines t, lineOk l = false) → package_versions t = none) ∧
    ((∀ l ∈ splitlines t, lineOk l = true) →
      package_versions t = some (buildDict (wfPairs (splitlines t)))) :=
  ⟨fun h => parseFreezeLines_fatal (splitlines t) [] h,
   fun h => parseFreezeLines_all_ok (splitlines t) [] h⟩

/-- Witness for the C1 theorem at concrete inputs: a text with a
separator-free line aborts, and a text of blank, `-`-prefixed and
well-formed lines parses to the dict of its well-formed pairs. -/
theorem package_versions_line_rules_witness :
    package_versions (chars "pkg==1.2\ntorn line\n") = none ∧
    package_versions (chars "pkg==1.2\n-e x\n\nOther==0.9\n") =
      some (buildDict (wfPairs
        (splitlines (chars "pkg==1.2\n-e x\n\nOther==0.9\n")))) :=
  ⟨(package_versions_line_rules (chars "pkg==1.2\ntorn line\n")).1
      ⟨chars "torn line", by decide, by decide⟩,
   (package_versions_line_rules (chars "pkg==1.2\n-e x\n\nOther==0.9\n")).2
      (by decide)⟩

/-- C2 (counterexample): a text consisting only of well-formed
`name==version` lines whose returned mapping is not the set of pairs of
those lines: with `a==1` and `a==2` the pair (`a`, `1`) is a well-formed
line pair but is absent from the returned mapping (the later line
overwrote it). -/
theorem package_versions_duplicate_name_counterexample :
    (∀ l ∈ splitlines (chars "a==1\na==2"), isWfLine l = true) ∧
    (chars "a", chars "1") ∈ wfPairs (splitlines (chars "a==1\na==2")) ∧
    package_versions (chars "a==1\na==2") = some [(chars "a", chars "2")] ∧
    (chars "a", chars "1") ∉ [((chars "a"), (chars "2"))] := by decide

/-- C2 (amended): for every text of well-formed `name==version` lines
interspersed with blank lines and `-`-prefixed lines, when the names are
pairwise distinct `package_versions` returns exactly the (name, version)
pairs of the well-formed lines; and — with or without distinctness — the
result is unchanged under any placement (insertion, removal,
repositioning) of the blank and `-`-prefixed lines. -/
theorem package_versions_round_trip (t u : Str)
    (ht : ∀ l ∈ splitlines t, lineOk l = true)
    (hu : ∀ l ∈ splitlines u, lineOk l = true)
    (heq : (splitlines u).filter isWfLine = (splitlines t).filter isWfLine) :
    (((wfPairs (splitlines t)).map Prod.fst).Nodup →
      package_versions t = some (wfPairs (splitlines t))) ∧
    package_versions u = package_versions t := by
  have h1 : package_versions t = some (buildDict (wfPairs (splitlines t))) :=
    parseFreezeLines_all_ok (splitlines t) [] ht
  have h2 : package_versions u = some (buildDict (wfPairs (splitlines u))) :=
    parseFreezeLines_all_ok (splitlines u) [] hu
  have hwf : wfPairs (splitlines u) = wfPairs (splitlines t) := by
    simp [wfPairs, heq]
  refine ⟨?_, ?_⟩
  · intro hnd
    rw [h1, buildDict_nodup _ hnd]
  · rw [h1, h2, hwf]

/-- Witness for the C2 theorem: the same two well-formed lines parsed with
and without interspersed blank and `-`-prefixed lines give the identical
mapping, which is exactly the well-formed pairs. -/
theorem package_versions_round_trip_witness :
    package_versions (chars "pkg==1.2\nOther==0.9") =
      some (wfPairs (splitlines (chars "pkg==1.2\nOther==0.9"))) ∧
    package_versions (chars "-e vcs\n\npkg==1.2\n\n-r marker\nOther==0.9\n") =
      package_versions (chars "pkg==1.2\nOther==0.9") :=
  ⟨(package_versions_round_trip
      (chars "pkg==1.2\nOther==0.9")
      (chars "-e vcs\n\npkg==1.2\n\n-r marker\nOther==0.9\n")
      (by decide) (by decide) (by decide)).1 (by decide),
   (package_versions_round_trip
      (chars "pkg==1.2\nOther==0.9")
      (chars "-e vcs\n\npkg==1.2\n\n-r marker\nOther==0.9\n")
      (by decide) (by decide) (by decide)).2⟩

/-- C3 (counterexample): keys of the returned mapping are not unique by
lower-cased name: the listing `Pkg==1` and `pkg==2` produces two distinct
keys that coincide after lower-casing. -/
theorem package_versions_ci_keys_counterexample :
    package_versions (chars "Pkg==1\npkg==2") =
      some [(chars "Pkg", chars "1"), (chars "pkg", chars "2")] ∧
    ¬ (([(chars "Pkg", chars "1"),
        (chars "pkg", chars "2")].map (fun p => lowerStr p.1)).Nodup) := by
  decide

/-- C3 (amended): the mapping returned by `package_versions` has keys unique
by exact, case-preserved name (lower-casing two distinct keys may collide);
the listing `pkg==1.2`, an `-e` line, a blank line and `Other==0.9` yields a
mapping whose lower-cased key/value pairs are exactly pkg to 1.2 and other
to 0.9; and `is_python_package_installed` holds exactly when the lower-cased
queried name equals some key lower-cased. -/
theorem package_versions_keys_and_ci (t n : Str) (d : Dict)
    (h : package_versions t = some d) :
    (d.map Prod.fst).Nodup ∧
    (is_python_package_installed t n = some true ↔
      ∃ k ∈ d.map Prod.fst, lowerStr k = lowerStr n) ∧
    (package_versions
        (chars "pkg==1.2\n-e git+http://x#egg=y\n\nOther==0.9\n")).map
      (fun d0 => d0.map (fun p => (lowerStr p.1, p.2))) =
      some [(chars "pkg", chars "1.2"), (chars "other", chars "0.9")] := by
  refine ⟨parseFreezeLines_keys_nodup (splitlines t) [] d h (by simp), ?_, by decide⟩
  have hinst : is_python_package_installed t n =
      some ((d.map (fun p => lowerStr p.1)).contains (lowerStr n)) := by
    simp [is_python_package_installed, h]
  rw [hinst]
  constructor
  · intro hsome
    have hc : (d.map (fun p => lowerStr p.1)).contains (lowerStr n) = true := by
      simpa using hsome
    have hmem : lowerStr n ∈ d.map (fun p => lowerStr p.1) := by
      simpa [List.elem_eq_mem] using hc
    obtain ⟨p, hp, hpe⟩ := List.mem_map.mp hmem
    exact ⟨p.1, List.mem_map.mpr ⟨p, hp, rfl⟩, hpe⟩
  · rintro ⟨k, hk, hke⟩
    obtain ⟨p, hp, hpe⟩ := List.mem_map.mp hk
    have hmem : lowerStr n ∈ d.map (fun p => lowerStr p.1) :=
      List.mem_map.mpr ⟨p, hp, by rw [hpe, hke]⟩
    have hc : (d.map (fun p => lowerStr p.1)).contains (lowerStr n) = true := by
      simpa [List.elem_eq_mem] using hmem
    rw [hc]

/-- Severity of a log record, the two levels the install retry path uses. -/
inductive LogLevel
  | warning
  | fatal
deriving DecidableEq, Repr

/-- Modelled from the spec: the generic bounded-retry collaborator and the
process runner are external to this repository.  Per the specification, the
retry helper invokes the action up to the given number of attempts; each
failing attempt is logged by the wrapped run_command at the per-run error
level, which install_module sets to WARNING; when every attempt fails, the
retry helper logs its final error message at its own error level.  The
result is the number of attempts performed, the log levels emitted in
order, and whether the action eventually succeeded.  `status i` is the exit
status of attempt `i`; a good status is exactly 0, matching the
`good_statuses=(0,)` argument in the source. -/
def retryGo (status : Nat → Int) (finalLevel : LogLevel) (i : Nat) :
    Nat → Nat × List LogLevel × Bool
  | 0 => (0, [finalLevel], false)
  | r + 1 =>
      if status i = 0 then (1, [], true)
      else
        let res := retryGo status finalLevel (i + 1) r
        (res.1 + 1, LogLevel.warning :: res.2.1, res.2.2)

/-- Retry invocation made by `install_module` (src/mixins/virtualenv.py
lines 204-220): 1 attempt when `optional` else the configured default
attempt count, good status 0, per-attempt error level WARNING, final error
level WARNING when `optional` else FATAL. -/
def install_module_retry (optional : Bool) (defaultAttempts : Nat)
    (status : Nat → Int) : Nat × List LogLevel × Bool :=
  retryGo status (if optional then LogLevel.warning else LogLevel.fatal) 0
    (if optional then 1 else defaultAttempts)

/-- When every attempt fails, the retry loop performs all allowed attempts,
logs one WARNING per attempt, and ends with one log at the final level. -/
theorem retryGo_all_fail (status : Nat → Int) (L : LogLevel)
    (h : ∀ j, status j ≠ 0) : ∀ r i,
    retryGo status L i r =
      (r, List.replicate r LogLevel.warning ++ [L], false) := by
  intro r
  induction r with
  | zero => intro i; rfl
  | succ r ih =>
      intro i
      simp only [retryGo, if_neg (h i), ih (i + 1), List.replicate_succ,
        List.cons_append]

/-- C5: when the constructed install command always fails, an optional
install is attempted exactly once with its failure reported at WARNING,
while a non-optional install is attempted the configured default count
(greater than one), every attempt failure logged at WARNING and only the
one final failure surfaced at FATAL; in particular the two attempt counts
differ. -/
theorem install_retry_policy (d : Nat) (status : Nat → Int)
    (hd : 1 < d) (hfail : ∀ j, status j ≠ 0) :
    install_module_retry true d status =
      (1, [LogLevel.warning, LogLevel.warning], false) ∧
    install_module_retry false d status =
      (d, List.replicate d LogLevel.warning ++ [LogLevel.fatal], false) ∧
    (install_module_retry false d status).1 ≠
      (install_module_retry true d status).1 := by
  have h1 : install_module_retry true d status =
      (1, [LogLevel.warning, LogLevel.warning], false) := by
    simpa [install_module_retry] using
      retryGo_all_fail status LogLevel.warning hfail 1 0
  have h2 : install_module_retry false d status =
      (d, List.replicate d LogLevel.warning ++ [LogLevel.fatal], false) := by
    simpa [install_module_retry] using
      retryGo_all_fail status LogLevel.fatal hfail d 0
  refine ⟨h1, h2, ?_⟩
  rw [h1, h2]
  exact fun hcontra => absurd (hcontra : d = 1) (by omega)

/-- Witness for the C5 theorem: with the default of five attempts and a
command that always exits 1, the optional install runs once and warns, the
required install runs five times and ends in FATAL. -/
theorem install_retry_policy_witness :
    install_module_retry true 5 (fun _ => 1) =
      (1, [LogLevel.warning, LogLevel.warning], false) ∧
    install_module_retry false 5 (fun _ => 1) =
      (5, List.replicate 5 LogLevel.warning ++ [LogLevel.fatal], false) ∧
    (install_module_retry false 5 (fun _ => 1)).1 ≠
      (install_module_retry true 5 (fun _ => 1)).1 :=
  install_retry_policy 5 (fun _ => 1) (by decide) (fun _ => one_ne_zero)

/-- Witness for the C3 theorem: parsing the scenario listing succeeds, the
case-insensitive membership test finds `OTHER` among its keys, and the keys
are distinct. -/
theorem package_versions_keys_and_ci_witness :
    ([(chars "pkg", chars "1.2"),
      (chars "Other", chars "0.9")].map Prod.fst).Nodup ∧
    (is_python_package_installed
        (chars "pkg==1.2\n-e git+http://x#egg=y\n\nOther==0.9\n")
        (chars "OTHER") = some true ↔
      ∃ k ∈ [(chars "pkg", chars "1.2"),
        (chars "Other", chars "0.9")].map Prod.fst,
        lowerStr k = lowerStr (chars "OTHER")) ∧
    (package_versions
        (chars "pkg==1.2\n-e git+http://x#egg=y\n\nOther==0.9\n")).map
      (fun d0 => d0.map (fun p => (lowerStr p.1, p.2))) =
      some [(chars "pkg", chars "1.2"), (chars "other", chars "0.9")] :=
  package_versions_keys_and_ci
    (chars "pkg==1.2\n-e git+http://x#egg=y\n\nOther==0.9\n")
    (chars "OTHER")
    [(chars "pkg", chars "1.2"), (chars "Other", chars "0.9")]
    (by decide)

/-- Heterogeneous module declaration accepted by `create_virtualenv`
(src/mixins/virtualenv.py lines 233-258): either a bare module name or a
dict with optional name, url and global options. -/
inductive ModuleDecl
  | bare (name : Str)
  | detailed (name : Option Str) (url : Option Str) (global_options : List Str)
deriving DecidableEq, Repr

/-- Configuration surface the mixin reads (`self.config` and
`self.query_abs_dirs()`).  Option fields model absent keys; `url_overrides`
models the dynamic `<module>_url` keys; `exes` models the executable
override table consulted by the external `query_exe` collaborator. -/
structure Config where
  abs_work_dir : Str
  abs_virtualenv_dir : Option Str
  virtualenv_path : Option Str
  is_windows : Bool
  exes : List (Str × Str)
  verbose_pip : Bool
  virtualenv_cache_dir : Option Str
  pip_timeout : Option Nat
  find_links : List Str
  pip_index : Option Bool
  virtualenv_exe : Option (Sum Str (List Str))
  virtualenv_python_dll : Option Str
  url_overrides : List (Str × Str)
  virtualenv_options : Option (List Str)
  virtualenv_modules : List ModuleDecl
  virtualenv_requirements : List Str

/-- First-match association lookup, the model of a Python dict read. -/
def assocLookup (m : List (Str × Str)) (k : Str) : Option Str :=
  match m with
  | [] => none
  | (k2, v) :: rest => if k2 = k then some v else assocLookup rest k

/-- Modelled from the spec: the executable-lookup collaborator `query_exe`
is external to this repository; it returns the configured override for the
name when one exists, else the name itself. -/
def query_exe (cfg : Config) (name : Str) : Str :=
  (assocLookup cfg.exes name).getD name

/-- Modelled from the spec: the list-typed `query_exe` call used for
easy_install, returning the configured override as a singleton command or
the given default invocation. -/
def query_exe_list (cfg : Config) (name : Str) (default : List Str) :
    List Str :=
  match assocLookup cfg.exes name with
  | some e => [e]
  | none => default

/-- Python truthiness of an optional string: present and non-empty. -/
def truthyOpt : Option Str → Bool
  | none => false
  | some s => !s.isEmpty

/-- POSIX `os.path.join` for the path tokens this model manipulates. -/
def pathJoin (a b : Str) : Str := a ++ chars "/" ++ b

/-- POSIX `os.path.isabs`. -/
def isAbsPath (p : Str) : Bool := startsWith (chars "/") p

/-- Model of `query_virtualenv_path` (src/mixins/virtualenv.py lines
32-44): the explicit override directory when present, else the configured
`virtualenv_path` resolved against the working directory when relative,
else `none`. -/
def query_virtualenv_path (cfg : Config) : Option Str :=
  match cfg.abs_virtualenv_dir with
  | some d => some d
  | none =>
      match cfg.virtualenv_path with
      | some p =>
          if p.isEmpty then none
          else if isAbsPath p then some p
          else some (pathJoin cfg.abs_work_dir p)
      | none => none

/-- Platform-dependent binary subdirectory (lines 52-54). -/
def bin_dir (cfg : Config) : Str :=
  if cfg.is_windows then chars "Scripts" else chars "bin"

/-- Body of the memoised resolution in `query_python_path` (lines 51-59):
the binary inside the environment when a root resolves, else the generic
executable lookup.  `os.path.abspath` normalisation is elided; resolved
paths are opaque tokens in this model. -/
def resolve_python_path (cfg : Config) (binary : Str) : Str :=
  match query_virtualenv_path cfg with
  | some vp => pathJoin (pathJoin vp (bin_dir cfg)) binary
  | none => query_exe cfg binary

/-- Model of `query_python_path` (lines 46-60) with the process-lifetime
memo `python_paths` passed explicitly: a cached name returns its stored
path unchanged; a fresh name is resolved and stored. -/
def query_python_path (cfg : Config) (python_paths : List (Str × Str))
    (binary : Str) : Str × List (Str × Str) :=
  match assocLookup python_paths binary with
  | some p => (p, python_paths)
  | none =>
      (resolve_python_path cfg binary,
        python_paths ++ [(binary, resolve_python_path cfg binary)])

/-- Appending a fresh binding becomes visible to lookup. -/
theorem assocLookup_append_fresh (m : List (Str × Str)) (k v : Str)
    (h : assocLookup m k = none) : assocLookup (m ++ [(k, v)]) k = some v := by
  induction m with
  | nil => simp [assocLookup]
  | cons p rest ih =>
      cases p with
      | mk k2 v2 =>
          by_cases hk : k2 = k
          · simp [assocLookup, hk] at h
          · simp only [assocLookup, if_neg hk] at h
            simpa [assocLookup, if_neg hk] using ih h

/-- Decimal rendering of the pip timeout (Python `str(...)`, line 153). -/
def natChars (n : Nat) : Str := (Nat.repr n).data

/-- Modelled from the spec: Proxxy mirror resolution
(`get_proxies_and_urls`) is an external collaborator producing the resolved
mirror URL list from the configured one; modelled as the configured list
itself. -/
def get_proxies_and_urls (urls : List Str) : List Str := urls

/-- Leading pip segment of the install command (lines 141-153): the pip
path, optional `-v`, the install verb, optional `--no-deps`, the
download-cache argument when the possibly-defaulted cache directory is
non-empty, and the timeout pair. -/
def pipPrefix (cfg : Config) (no_deps : Bool) : List Str :=
  let pip := resolve_python_path cfg (chars "pip")
  let command := if cfg.verbose_pip then [pip, chars "-v", chars "install"]
    else [pip, chars "install"]
  let command := command ++ (if no_deps then [chars "--no-deps"] else [])
  let virtualenv_cache_dir := cfg.virtualenv_cache_dir.getD
    (pathJoin ((query_virtualenv_path cfg).getD []) (chars "cache"))
  let command := command ++
    (if virtualenv_cache_dir.isEmpty then []
     else [chars "--download-cache", virtualenv_cache_dir])
  command ++ [chars "--timeout", natChars (cfg.pip_timeout.getD 120)]

/-- One `-r` pair per requirements file, in the order given (lines
154-155). -/
def reqArgs (requirements : List Str) : List Str :=
  (requirements.map (fun r => [chars "-r", r])).flatten

/-- The `--no-index` decision (lines 156-157): a truthy `find_links` makes
the source read `c["pip_index"]` unguarded, so an absent key is a raised
KeyError; with the key present the flag is added exactly when the value is
false. -/
def noIndexArgs (cfg : Config) : Except String (List Str) :=
  if cfg.find_links.isEmpty then Except.ok []
  else
    match cfg.pip_index with
    | none => Except.error "KeyError: pip_index"
    | some b => Except.ok (if b then [] else [chars "--no-index"])

/-- One `--global-option` pair per option (lines 158-159). -/
def globalOptionArgs (global_options : List Str) : List Str :=
  (global_options.map (fun o => [chars "--global-option", o])).flatten

/-- One `--find-links` pair per resolved mirror URL (lines 181-184). -/
def findLinksArgs (cfg : Config) : List Str :=
  ((get_proxies_and_urls cfg.find_links).map
    (fun l => [chars "--find-links", l])).flatten

/-- Python `install_method in (None, 'pip')`. -/
def isPipMethod : Option Str → Bool
  | none => true
  | some s => s = chars "pip"

/-- Windows-safe easy_install fallback invocation (lines 170-176), invoking
the environment interpreter on the easy_install script instead of the
`easy_install` binary. -/
def easyInstallDefault (cfg : Config) : List Str :=
  if cfg.is_windows then
    [resolve_python_path cfg (chars "python"),
     resolve_python_path cfg (chars "easy_install-script.py")]
  else [chars "easy_install"]

/-- Command construction of `install_module` (src/mixins/virtualenv.py
lines 117-193), excluding subprocess execution and retry.  Fatal
configuration errors are `Except.error` results.  For install_method
easy_install with requirements files the source first performs a separate
recursive pip sub-install of the requirements; that separate invocation is
not part of the returned command, which is the easy_install invocation
itself. -/
def build_install_command (cfg : Config) (module module_url : Option Str)
    (requirements : List Str) (global_options : List Str)
    (no_deps : Bool) (editable : Bool) (install_method : Option Str) :
    Except String (List Str) :=
  let module_url := if truthyOpt module_url then module_url else module
  let base :=
    if isPipMethod install_method then
      if truthyOpt module_url = false ∧ requirements = [] then
        Except.error "Must specify module and/or requirements"
      else
        match noIndexArgs cfg with
        | Except.error e => Except.error e
        | Except.ok noIndex =>
            Except.ok (pipPrefix cfg no_deps ++ reqArgs requirements ++
              noIndex ++ globalOptionArgs global_options)
    else if install_method = some (chars "easy_install") then
      if truthyOpt module = false then
        Except.error "module parameter required with easy_install"
      else
        Except.ok (query_exe_list cfg (chars "easy_install")
          (easyInstallDefault cfg))
    else
      Except.error "install_module() does not understand the install_method"
  match base with
  | Except.error e => Except.error e
  | Except.ok b =>
      let command := b ++ findLinksArgs cfg
      if truthyOpt module_url then
        if editable then
          if isPipMethod install_method then
            Except.ok (command ++ [chars "-e", module_url.getD []])
          else Except.error "editable installs not supported"
        else Except.ok (command ++ [module_url.getD []])
      else Except.ok command

/-- Trailing source segment of the constructed command (lines 186-193): the
resolved source, preceded by `-e` when editable, or nothing when no source
is in play. -/
def buildTail (module module_url : Option Str) (editable : Bool) : List Str :=
  let mu := if truthyOpt module_url then module_url else module
  if truthyOpt mu then
    (if editable then [chars "-e", mu.getD []] else [mu.getD []])
  else []

/-- Successful pip construction produces the fixed prefix, the requirements
pairs, the no-index segment, the global options, the find-links pairs and
the source tail, in that order. -/
theorem build_pip_ok_shape (cfg : Config) (module module_url : Option Str)
    (requirements global_options : List Str) (no_deps editable : Bool)
    (install_method : Option Str) (ni : List Str)
    (hmeth : isPipMethod install_method = true)
    (hok : truthyOpt (if truthyOpt module_url then module_url else module) =
        true ∨ requirements ≠ [])
    (hni : noIndexArgs cfg = Except.ok ni) :
    build_install_command cfg module module_url requirements global_options
        no_deps editable install_method =
      Except.ok (pipPrefix cfg no_deps ++ reqArgs requirements ++ ni ++
        globalOptionArgs global_options ++ findLinksArgs cfg ++
        buildTail module module_url editable) := by
  have hguard :
      ¬ (truthyOpt (if truthyOpt module_url then module_url else module) =
          false ∧ requirements = []) := by
    rcases hok with h | h
    · rintro ⟨h1, _⟩
      rw [h] at h1
      cases h1
    · rintro ⟨_, h2⟩
      exact h h2
  unfold build_install_command buildTail
  simp only [hmeth, if_true, if_pos, hni, if_neg hguard]
  by_cases htr : truthyOpt (if truthyOpt module_url then module_url else
      module) = true
  · cases editable with
    | true => simp [htr, hmeth, List.append_assoc]
    | false => simp [htr, List.append_assoc]
  · simp [htr, List.append_assoc]

/-- Successful pip commands with a truthy explicit source: prefix, then the
`-r` pairs in order, then a middle segment, then the source as the final
element, with `-e` immediately before it when editable. -/
theorem build_pip_shape (cfg : Config) (module : Option Str) (u : Str)
    (requirements global_options : List Str) (no_deps editable : Bool)
    (install_method : Option Str)
    (hmeth : isPipMethod install_method = true)
    (hu : u.isEmpty = false)
    (hfl : cfg.find_links = [] ∨ cfg.pip_index.isSome = true) :
    ∃ B, build_install_command cfg module (some u) requirements
        global_options no_deps editable install_method =
      Except.ok (pipPrefix cfg no_deps ++ reqArgs requirements ++ B ++
        (if editable then [chars "-e", u] else [u])) := by
  have htr : truthyOpt (some u) = true := by simp [truthyOpt, hu]
  obtain ⟨ni, hni⟩ : ∃ ni, noIndexArgs cfg = Except.ok ni := by
    by_cases hempty : cfg.find_links.isEmpty
    · exact ⟨[], by simp [noIndexArgs, hempty]⟩
    · rcases hfl with h | h
      · exact absurd (by simp [h]) hempty
      · obtain ⟨b, hb⟩ := Option.isSome_iff_exists.mp h
        exact ⟨if b then [] else [chars "--no-index"],
          by simp [noIndexArgs, hempty, hb]⟩
  refine ⟨ni ++ globalOptionArgs global_options ++ findLinksArgs cfg, ?_⟩
  have hshape := build_pip_ok_shape cfg module (some u) requirements
    global_options no_deps editable install_method ni hmeth
    (Or.inl (by simp [htr])) hni
  rw [hshape]
  have htail : buildTail module (some u) editable =
      (if editable then [chars "-e", u] else [u]) := by
    simp [buildTail, htr]
  rw [htail]
  simp [List.append_assoc]

/-- C8: once query_python_path has resolved a binary name, every later call
with that name returns the identical string from the memo, whatever the
configuration has become in the meantime (the second call here runs with an
arbitrary, possibly different configuration). -/
theorem query_python_path_memoized (cfg cfg2 : Config)
    (cache cache2 : List (Str × Str)) (binary p : Str)
    (h : query_python_path cfg cache binary = (p, cache2)) :
    query_python_path cfg2 cache2 binary = (p, cache2) := by
  unfold query_python_path at h ⊢
  cases hl : assocLookup cache binary with
  | some q =>
      rw [hl] at h
      rw [Prod.mk.injEq] at h
      obtain ⟨h1, h2⟩ := h
      subst h1
      subst h2
      rw [hl]
  | none =>
      rw [hl] at h
      rw [Prod.mk.injEq] at h
      obtain ⟨h1, h2⟩ := h
      subst h1
      subst h2
      rw [assocLookup_append_fresh cache binary _ hl]

/-- Concrete configuration used by witnesses: a POSIX host with a relative
environment path and no optional keys set. -/
def sampleConfig : Config where
  abs_work_dir := chars "/build/work"
  abs_virtualenv_dir := none
  virtualenv_path := some (chars "venv")
  is_windows := false
  exes := []
  verbose_pip := false
  virtualenv_cache_dir := none
  pip_timeout := none
  find_links := []
  pip_index := none
  virtualenv_exe := none
  virtualenv_python_dll := none
  url_overrides := []
  virtualenv_options := none
  virtualenv_modules := []
  virtualenv_requirements := []

/-- A second configuration differing from `sampleConfig` in path and
platform, used to show memoisation survives configuration change. -/
def sampleConfig2 : Config :=
  { sampleConfig with
      virtualenv_path := some (chars "elsewhere"), is_windows := true }

/-- Witness for the C8 theorem: after `python` was resolved under
`sampleConfig`, the call under the different `sampleConfig2` still returns
the originally memoised path and leaves the memo unchanged. -/
theorem query_python_path_memoized_witness :
    query_python_path sampleConfig2
      [(chars "python", chars "/build/work/venv/bin/python")]
      (chars "python") =
      (chars "/build/work/venv/bin/python",
       [(chars "python", chars "/build/work/venv/bin/python")]) :=
  query_python_path_memoized sampleConfig sampleConfig2 []
    [(chars "python", chars "/build/work/venv/bin/python")]
    (chars "python") (chars "/build/work/venv/bin/python") (by decide)

/-- C6: for a pip install with two requirements files and an editable
source, the constructed command contains the two `-r` pairs in the order
the files were given, later followed by `-e` placed immediately before the
resolved source, with the source as the final element of the command. -/
theorem pip_command_ordering (cfg : Config) (module : Option Str)
    (src f1 f2 : Str) (global_options : List Str) (no_deps : Bool)
    (install_method : Option Str)
    (hmeth : isPipMethod install_method = true)
    (hsrc : src.isEmpty = false)
    (hfl : cfg.find_links = [] ∨ cfg.pip_index.isSome = true) :
    ∃ A B, build_install_command cfg module (some src) [f1, f2]
        global_options no_deps true install_method =
      Except.ok (A ++ [chars "-r", f1, chars "-r", f2] ++ B ++
        [chars "-e", src]) := by
  obtain ⟨B, hB⟩ := build_pip_shape cfg module src [f1, f2] global_options
    no_deps true install_method hmeth hsrc hfl
  refine ⟨pipPrefix cfg no_deps, B, ?_⟩
  rw [hB]
  simp [reqArgs]

/-- Witness for the C6 theorem: a concrete editable pip install with two
requirements files has the claimed decomposition. -/
theorem pip_command_ordering_witness :
    ∃ A B, build_install_command sampleConfig none
        (some (chars "http://x/pkg.tgz")) [chars "r1.txt", chars "r2.txt"]
        [] false true (some (chars "pip")) =
      Except.ok (A ++ [chars "-r", chars "r1.txt", chars "-r",
        chars "r2.txt"] ++ B ++ [chars "-e", chars "http://x/pkg.tgz"]) :=
  pip_command_ordering sampleConfig none (chars "http://x/pkg.tgz")
    (chars "r1.txt") (chars "r2.txt") [] false (some (chars "pip"))
    (by decide) (by decide) (Or.inl (by decide))

/-- Elements of the requirements segment are the flag or a file. -/
theorem mem_reqArgs (x : Str) (rs : List Str) (hx : x ∈ reqArgs rs) :
    x = chars "-r" ∨ x ∈ rs := by
  simp only [reqArgs, List.mem_flatten, List.mem_map] at hx
  obtain ⟨l, ⟨r, hr, hl⟩, hxl⟩ := hx
  rw [← hl] at hxl
  rcases List.mem_cons.mp hxl with h | h
  · exact Or.inl h
  · rcases List.mem_cons.mp h with h2 | h2
    · exact Or.inr (h2 ▸ hr)
    · cases h2

/-- Elements of the global-options segment are the flag or an option. -/
theorem mem_globalOptionArgs (x : Str) (os : List Str)
    (hx : x ∈ globalOptionArgs os) :
    x = chars "--global-option" ∨ x ∈ os := by
  simp only [globalOptionArgs, List.mem_flatten, List.mem_map] at hx
  obtain ⟨l, ⟨o, ho, hl⟩, hxl⟩ := hx
  rw [← hl] at hxl
  rcases List.mem_cons.mp hxl with h | h
  · exact Or.inl h
  · rcases List.mem_cons.mp h with h2 | h2
    · exact Or.inr (h2 ▸ ho)
    · cases h2

/-- Elements of the find-links segment are the flag or a configured URL. -/
theorem mem_findLinksArgs (x : Str) (cfg : Config)
    (hx : x ∈ findLinksArgs cfg) :
    x = chars "--find-links" ∨ x ∈ cfg.find_links := by
  simp only [findLinksArgs, get_proxies_and_urls, List.mem_flatten,
    List.mem_map] at hx
  obtain ⟨l, ⟨u, hu, hl⟩, hxl⟩ := hx
  rw [← hl] at hxl
  rcases List.mem_cons.mp hxl with h | h
  · exact Or.inl h
  · rcases List.mem_cons.mp h with h2 | h2
    · exact Or.inr (h2 ▸ hu)
    · cases h2

/-- Elements of the source tail are `-e` or the resolved source. -/
theorem mem_buildTail (x : Str) (module module_url : Option Str) (ed : Bool)
    (hx : x ∈ buildTail module module_url ed) :
    x = chars "-e" ∨
      x = (if truthyOpt module_url then module_url else module).getD [] := by
  unfold buildTail at hx
  by_cases htr :
      truthyOpt (if truthyOpt module_url then module_url else module) = true
  · rw [if_pos htr] at hx
    cases ed with
    | true =>
        have hx2 : x ∈ [chars "-e",
            (if truthyOpt module_url then module_url else module).getD []] :=
          hx
        rcases List.mem_cons.mp hx2 with h | h
        · exact Or.inl h
        · rcases List.mem_cons.mp h with h2 | h2
          · exact Or.inr h2
          · cases h2
    | false =>
        have hx2 : x ∈
            [(if truthyOpt module_url then module_url else module).getD []] :=
          hx
        rcases List.mem_cons.mp hx2 with h | h
        · exact Or.inr h
        · cases h
  · rw [if_neg htr] at hx
    cases hx

/-- Whether a construction result contains the `--no-index` flag. -/
def hasNoIndex : Except String (List Str) → Bool
  | Except.ok cmd => cmd.contains (chars "--no-index")
  | Except.error _ => false

/-- C10: in the pip path, `--no-index` is appended exactly when the
configured find_links list is non-empty and pip_index is present and false;
and whenever find_links is non-empty, an absent pip_index key makes the
command construction itself fail (the unguarded `c["pip_index"]` read),
before any subprocess would run.  The non-flag hypotheses record that no
other configured string is literally `--no-index`. -/
theorem pip_no_index_condition (cfg : Config) (module module_url : Option Str)
    (requirements global_options : List Str) (no_deps editable : Bool)
    (install_method : Option Str)
    (hmeth : isPipMethod install_method = true)
    (hok : truthyOpt (if truthyOpt module_url then module_url else module) =
        true ∨ requirements ≠ [])
    (h1 : chars "--no-index" ∉ requirements)
    (h2 : chars "--no-index" ∉ global_options)
    (h3 : chars "--no-index" ∉ cfg.find_links)
    (h4 : chars "--no-index" ∉ pipPrefix cfg no_deps)
    (h5 : (if truthyOpt module_url then module_url else module).getD [] ≠
        chars "--no-index") :
    hasNoIndex (build_install_command cfg module module_url requirements
        global_options no_deps editable install_method) =
      (!cfg.find_links.isEmpty && decide (cfg.pip_index = some false)) ∧
    ((cfg.find_links ≠ [] ∧ cfg.pip_index = none) →
      build_install_command cfg module module_url requirements
        global_options no_deps editable install_method =
        Except.error "KeyError: pip_index") := by
  have hne : (chars "--no-index" : Str) ≠ chars "-r" := by decide
  have hne2 : (chars "--no-index" : Str) ≠ chars "--global-option" := by decide
  have hne3 : (chars "--no-index" : Str) ≠ chars "--find-links" := by decide
  have hne4 : (chars "--no-index" : Str) ≠ chars "-e" := by decide
  have hmemNot : ∀ ni : List Str, chars "--no-index" ∉ ni →
      ∀ cmd, build_install_command cfg module module_url requirements
          global_options no_deps editable install_method = Except.ok cmd →
        noIndexArgs cfg = Except.ok ni → chars "--no-index" ∉ cmd := by
    intro ni hni cmd hcmd hnia
    rw [build_pip_ok_shape cfg module module_url requirements global_options
      no_deps editable install_method ni hmeth hok hnia] at hcmd
    injection hcmd with hcmd
    subst hcmd
    intro hmem
    simp only [List.mem_append] at hmem
    rcases hmem with ((((hm | hm) | hm) | hm) | hm) | hm
    · exact h4 hm
    · rcases mem_reqArgs _ _ hm with h | h
      · exact hne h
      · exact h1 h
    · exact hni hm
    · rcases mem_globalOptionArgs _ _ hm with h | h
      · exact hne2 h
      · exact h2 h
    · rcases mem_findLinksArgs _ _ hm with h | h
      · exact hne3 h
      · exact h3 h
    · rcases mem_buildTail _ _ _ _ hm with h | h
      · exact hne4 h
      · exact h5 h.symm
  by_cases hempty : cfg.find_links.isEmpty
  · have hnia : noIndexArgs cfg = Except.ok [] := by
      simp [noIndexArgs, hempty]
    have hshape := build_pip_ok_shape cfg module module_url requirements
      global_options no_deps editable install_method [] hmeth hok hnia
    constructor
    · rw [hshape]
      have hnot := hmemNot [] (by simp) _ hshape hnia
      simp only [hasNoIndex, hempty, Bool.not_true, Bool.false_and]
      simpa [List.elem_eq_mem] using hnot
    · rintro ⟨hfl, _⟩
      exact absurd (by simpa using hempty) hfl
  · cases hpi : cfg.pip_index with
    | none =>
        have herr : noIndexArgs cfg = Except.error "KeyError: pip_index" := by
          simp [noIndexArgs, hempty, hpi]
        have hbuild : build_install_command cfg module module_url requirements
            global_options no_deps editable install_method =
            Except.error "KeyError: pip_index" := by
          have hguard :
              ¬ (truthyOpt (if truthyOpt module_url then module_url else
                  module) = false ∧ requirements = []) := by
            rcases hok with h | h
            · rintro ⟨hg, _⟩
              rw [h] at hg
              cases hg
            · rintro ⟨_, hg⟩
              exact h hg
          unfold build_install_command
          simp [hmeth, hguard, herr]
        refine ⟨?_, fun _ => hbuild⟩
        rw [hbuild]
        simp [hasNoIndex, hpi]
    | some b =>
        cases b with
        | true =>
            have hnia : noIndexArgs cfg = Except.ok [] := by
              simp [noIndexArgs, hempty, hpi]
            have hshape := build_pip_ok_shape cfg module module_url
              requirements global_options no_deps editable install_method []
              hmeth hok hnia
            refine ⟨?_, ?_⟩
            · rw [hshape]
              have hnot := hmemNot [] (by simp) _ hshape hnia
              simp only [hasNoIndex, hpi]
              simpa [List.elem_eq_mem] using hnot
            · rintro ⟨_, hcontra⟩
              simp at hcontra
        | false =>
            have hnia : noIndexArgs cfg = Except.ok [chars "--no-index"] := by
              simp [noIndexArgs, hempty, hpi]
            have hshape := build_pip_ok_shape cfg module module_url
              requirements global_options no_deps editable install_method
              [chars "--no-index"] hmeth hok hnia
            refine ⟨?_, ?_⟩
            · rw [hshape]
              have hmem : chars "--no-index" ∈
                  pipPrefix cfg no_deps ++ reqArgs requirements ++
                    [chars "--no-index"] ++
                    globalOptionArgs global_options ++ findLinksArgs cfg ++
                    buildTail module module_url editable := by
                simp [List.mem_append]
              simp only [hasNoIndex, hempty, hpi, Bool.not_false,
                Bool.true_and]
              simp [List.elem_eq_mem, hmem]
            · rintro ⟨_, hcontra⟩
              simp at hcontra

/-- Witness for the C10 theorem at a mirror-configured install: a non-empty
find_links list with pip_index false yields a command carrying
`--no-index`, and the KeyError channel is the vacuous branch here. -/
theorem pip_no_index_condition_witness :
    hasNoIndex (build_install_command
        { sampleConfig with
            find_links := [chars "http://mirror"],
            pip_index := some false }
        (some (chars "mod")) none [] [] false false none) =
      (!([chars "http://mirror"] : List Str).isEmpty &&
        decide ((some false : Option Bool) = some false)) ∧
    (([chars "http://mirror"] : List Str) ≠ [] ∧
        (some false : Option Bool) = none →
      build_install_command
        { sampleConfig with
            find_links := [chars "http://mirror"],
            pip_index := some false }
        (some (chars "mod")) none [] [] false false none =
        Except.error "KeyError: pip_index") :=
  pip_no_index_condition
    { sampleConfig with
        find_links := [chars "http://mirror"], pip_index := some false }
    (some (chars "mod")) none [] [] false false none
    (by decide) (Or.inl (by decide)) (by decide) (by decide) (by decide)
    (by decide) (by decide)

/-- Registered module tuple appended by `register_virtualenv_module`
(src/mixins/virtualenv.py lines 18-30). -/
structure RegisteredModule where
  name : Option Str
  url : Option Str
  method : Option Str
  requirements : Option (List Str)
  optional : Bool
  two_pass : Bool
  editable : Bool
deriving DecidableEq, Repr

/-- Arguments of one `install_module` call made by `create_virtualenv`. -/
structure InstallCall where
  module : Option Str
  module_url : Option Str
  install_method : Option Str
  requirements : List Str
  global_options : List Str
  optional : Bool
  no_deps : Bool
  editable : Bool
deriving DecidableEq, Repr

/-- Observable action performed by `create_virtualenv`, in order. -/
inductive Event
  | copy_dll
  | download (name : Str)
  | run_creation (cmd : List Str)
  | install (call : InstallCall)
  | freeze
deriving DecidableEq, Repr

/-- Outcome of `create_virtualenv`: normal return, the `-1` sentinel return
for an unresolvable creation tool, the fatal abort of a failed creation
command (`halt_on_failure=True`), or the fatal abort of a malformed module
declaration. -/
inductive Outcome
  | ok
  | sentinel (code : Int)
  | fatal_creation
  | fatal_config (msg : String)
deriving DecidableEq, Repr

/-- Modelled from the spec: the ambient system state the external
collaborators consult — which paths `os.path.exists` affirms, which names
`self.which` resolves on the system path, and the exit status the process
runner reports for a command. -/
structure World where
  existing : List Str
  on_path : List Str
  exec_status : List Str → Int

/-- The creation-tool invocation (lines 272-275): the configured
`virtualenv` value, a configured string being wrapped into a one-element
command, defaulting to the external executable lookup. -/
def virtualenv_tool (cfg : Config) : List Str :=
  match cfg.virtualenv_exe with
  | none => [query_exe cfg (chars "virtualenv")]
  | some (Sum.inl s) => [s]
  | some (Sum.inr l) => l

/-- One step of the module loop of `create_virtualenv` (lines 318-339):
fatal when a dict entry has no truthy name; otherwise the install call with
the declared name, the url (for a bare name, the `<name>_url` configuration
override defaulting to the name itself), easy_install for pywin32 and pip
for everything else, and the shared requirements list. -/
def module_install_call (cfg : Config) (requirements : List Str) :
    ModuleDecl → Except String InstallCall
  | ModuleDecl.bare name =>
      Except.ok
        { module := some name
          module_url := some ((assocLookup cfg.url_overrides name).getD name)
          install_method :=
            if name = chars "pywin32" then some (chars "easy_install")
            else some (chars "pip")
          requirements := requirements
          global_options := []
          optional := false
          no_deps := false
          editable := false }
  | ModuleDecl.detailed name url gopts =>
      if truthyOpt name then
        Except.ok
          { module := name
            module_url := url
            install_method :=
              if name.getD [] = chars "pywin32" then
                some (chars "easy_install")
              else some (chars "pip")
            requirements := requirements
            global_options := gopts
            optional := false
            no_deps := false
            editable := false }
      else Except.error "Cannot install module without module name"

/-- Module loop of `create_virtualenv` (lines 318-339): one install call
per declaration, in order; a malformed declaration aborts the loop at that
point. -/
def module_loop (cfg : Config) (requirements : List Str) :
    List ModuleDecl → List Event × Option String
  | [] => ([], none)
  | m :: rest =>
      match module_install_call cfg requirements m with
      | Except.error e => ([], some e)
      | Except.ok call =>
          let res := module_loop cfg requirements rest
          (Event.install call :: res.1, res.2)

/-- Registered-module loop of `create_virtualenv` (lines 341-353): a
two-pass spec is first installed with `--no-deps`, then every spec is
installed normally, each with its own registered requirements (empty when
none were registered). -/
def registered_events : List RegisteredModule → List Event
  | [] => []
  | r :: rest =>
      (if r.two_pass then
        [Event.install
          { module := r.name
            module_url := r.url
            install_method := r.method
            requirements := r.requirements.getD []
            global_options := []
            optional := r.optional
            no_deps := true
            editable := r.editable }]
      else []) ++
      [Event.install
        { module := r.name
          module_url := r.url
          install_method := r.method
          requirements := r.requirements.getD []
          global_options := []
          optional := r.optional
          no_deps := false
          editable := r.editable }] ++
      registered_events rest

/-- Install phase of `create_virtualenv` (lines 311-357): default the
module and requirements lists from configuration, perform the standalone
requirements-only install exactly when there are requirements but no
modules, run the module loop, then the registered-module loop, then the
final installed-package query. -/
def install_phase (cfg : Config) (modules : List ModuleDecl)
    (requirements : List Str) (registered : List RegisteredModule)
    (pre : List Event) : Outcome × List Event :=
  let modules := if modules.isEmpty then cfg.virtualenv_modules else modules
  let requirements :=
    if requirements.isEmpty then cfg.virtualenv_requirements
    else requirements
  let req_only :=
    if modules.isEmpty ∧ ¬ requirements.isEmpty then
      [Event.install
        { module := none
          module_url := none
          install_method := some (chars "pip")
          requirements := requirements
          global_options := []
          optional := false
          no_deps := false
          editable := false }]
    else []
  let res := module_loop cfg requirements modules
  match res.2 with
  | some e => (Outcome.fatal_config e, pre ++ req_only ++ res.1)
  | none =>
      (Outcome.ok,
        pre ++ req_only ++ res.1 ++ registered_events registered ++
          [Event.freeze])

/-- Preliminary staging actions of `create_virtualenv` (lines 282-299): the
best-effort support-DLL copy when configured, and the bootstrap downloads
for `distribute` and `pip` when their `<name>_url` keys are configured. -/
def staging_events (cfg : Config) : List Event :=
  (if cfg.virtualenv_python_dll.isSome then [Event.copy_dll] else []) ++
  (([chars "distribute", chars "pip"].filter
    (fun m => (assocLookup cfg.url_overrides m).isSome)).map
    Event.download)

/-- Model of `create_virtualenv` (src/mixins/virtualenv.py lines 222-357):
the outcome together with the external actions performed, in order.  The
subprocess execution and retry inside each emitted install call are
modelled separately by `build_install_command` and `install_module_retry`;
a configured creation-tool command list is taken to be non-empty, as the
source indexes its first element. -/
def create_virtualenv (cfg : Config) (w : World) (modules : List ModuleDecl)
    (requirements : List Str) (registered : List RegisteredModule) :
    Outcome × List Event :=
  let venv_path := query_virtualenv_path cfg
  let virtualenv := virtualenv_tool cfg
  if (virtualenv.headD []) ∉ w.existing ∧ (virtualenv.headD []) ∉ w.on_path
  then (Outcome.sentinel (-1), [])
  else
    let pre := staging_events cfg
    let virtualenv_options := cfg.virtualenv_options.getD
      [chars "--no-site-packages", chars "--distribute"]
    if resolve_python_path cfg (chars "python") ∈ w.existing then
      install_phase cfg modules requirements registered pre
    else
      let cmd := virtualenv ++ virtualenv_options ++ [venv_path.getD []]
      if w.exec_status cmd ≠ 0 then
        (Outcome.fatal_creation, pre ++ [Event.run_creation cmd])
      else
        install_phase cfg modules requirements registered
          (pre ++ [Event.run_creation cmd])

/-- Whether an event is an invocation of the creation tool. -/
def is_creation_run : Event → Bool
  | Event.run_creation _ => true
  | _ => false

/-- Whether an event is an install call. -/
def is_install_event : Event → Bool
  | Event.install _ => true
  | _ => false

/-- Number of creation-tool invocations among the performed actions. -/
def creation_runs (evs : List Event) : Nat :=
  (evs.filter is_creation_run).length

/-- Creation-run counting distributes over concatenation. -/
theorem creation_runs_append (a b : List Event) :
    creation_runs (a ++ b) = creation_runs a + creation_runs b := by
  simp [creation_runs, List.filter_append]

/-- The module loop never invokes the creation tool. -/
theorem creation_runs_module_loop (cfg : Config) (reqs : List Str) :
    ∀ ms : List ModuleDecl, creation_runs (module_loop cfg reqs ms).1 = 0 := by
  intro ms
  induction ms with
  | nil => rfl
  | cons m rest ih =>
      cases hc : module_install_call cfg reqs m with
      | error e => simp [module_loop, hc, creation_runs]
      | ok call =>
          simp only [module_loop, hc]
          simpa [creation_runs, List.filter_cons, is_creation_run] using ih

/-- The registered-module loop never invokes the creation tool. -/
theorem creation_runs_registered (rs : List RegisteredModule) :
    creation_runs (registered_events rs) = 0 := by
  induction rs with
  | nil => rfl
  | cons r rest ih =>
      cases htp : r.two_pass with
      | true =>
          simpa [registered_events, htp, creation_runs, List.filter_append,
            List.filter_cons, is_creation_run] using ih
      | false =>
          simpa [registered_events, htp, creation_runs, List.filter_append,
            List.filter_cons, is_creation_run] using ih

/-- The optional standalone requirements-only install is never a creation
run. -/
theorem creation_runs_opt_install (p : Prop) [Decidable p]
    (c : InstallCall) :
    creation_runs (if p then [Event.install c] else []) = 0 := by
  by_cases h : p
  · simp [h, creation_runs, is_creation_run]
  · simp [h, creation_runs]

/-- The install phase adds no creation-tool invocation over the preceding
events. -/
theorem creation_runs_install_phase (cfg : Config)
    (modules : List ModuleDecl) (reqs : List Str)
    (regs : List RegisteredModule) (pre : List Event) :
    creation_runs (install_phase cfg modules reqs regs pre).2 =
      creation_runs pre := by
  unfold install_phase
  cases herr : (module_loop cfg
      (if reqs.isEmpty then cfg.virtualenv_requirements else reqs)
      (if modules.isEmpty then cfg.virtualenv_modules else modules)).2 with
  | some e =>
      simp only [herr]
      rw [creation_runs_append, creation_runs_append,
        creation_runs_module_loop, creation_runs_opt_install]
      omega
  | none =>
      simp only [herr]
      rw [creation_runs_append, creation_runs_append, creation_runs_append,
        creation_runs_append, creation_runs_module_loop,
        creation_runs_opt_install, creation_runs_registered]
      simp [creation_runs, is_creation_run]

/-- The install phase ends normally or in a module-configuration fatal,
never in the sentinel or the creation fatal. -/
theorem install_phase_outcome (cfg : Config) (modules : List ModuleDecl)
    (reqs : List Str) (regs : List RegisteredModule) (pre : List Event) :
    (install_phase cfg modules reqs regs pre).1 = Outcome.ok ∨
    ∃ e, (install_phase cfg modules reqs regs pre).1 =
      Outcome.fatal_config e := by
  unfold install_phase
  cases herr : (module_loop cfg
      (if reqs.isEmpty then cfg.virtualenv_requirements else reqs)
      (if modules.isEmpty then cfg.virtualenv_modules else modules)).2 with
  | some e =>
      refine Or.inr ⟨e, ?_⟩
      simp only [herr]
  | none =>
      refine Or.inl ?_
      simp only [herr]

/-- The download events carry no creation run. -/
theorem creation_runs_downloads (ls : List Str) :
    creation_runs (ls.map Event.download) = 0 := by
  induction ls with
  | nil => rfl
  | cons a rest ih =>
      simp [creation_runs, List.filter_cons, is_creation_run] at ih ⊢

/-- The preliminary staging events carry no creation run. -/
theorem creation_runs_pre (cfg : Config) :
    creation_runs (staging_events cfg) = 0 := by
  unfold staging_events
  rw [creation_runs_append, creation_runs_downloads]
  by_cases hd : cfg.virtualenv_python_dll.isSome
  · simp [hd, creation_runs, List.filter_cons, is_creation_run]
  · simp [hd, creation_runs]

/-- C4 (counterexample): the interpreter binary existing at its resolved
path does not alone guarantee an error-free return — the creation-tool
resolvability check precedes the idempotence check, so a world whose
filesystem holds the interpreter but resolves no creation tool still gets
the missing-tool failure report (sentinel -1), though indeed with zero
creation-tool invocations. -/
theorem create_skip_reports_error_counterexample :
    resolve_python_path sampleConfig (chars "python") ∈
      ([chars "/build/work/venv/bin/python"] : List Str) ∧
    create_virtualenv sampleConfig
      { existing := [chars "/build/work/venv/bin/python"],
        on_path := [], exec_status := fun _ => 0 }
      [] [] [] = (Outcome.sentinel (-1), []) := by
  exact ⟨by decide, by decide⟩

/-- C4: when the target interpreter binary already exists at its resolved
path (an already-populated environment root, as after a previous successful
create_virtualenv call) and the creation tool is resolvable, the call
performs zero invocations of the creation tool and the creation step
reports no error: the outcome is neither the missing-tool sentinel nor the
creation-failure fatal. -/
theorem create_virtualenv_skips_existing (cfg : Config) (w : World)
    (modules : List ModuleDecl) (requirements : List Str)
    (registered : List RegisteredModule)
    (htool : (virtualenv_tool cfg).headD [] ∈ w.existing ∨
      (virtualenv_tool cfg).headD [] ∈ w.on_path)
    (hpy : resolve_python_path cfg (chars "python") ∈ w.existing) :
    creation_runs
      (create_virtualenv cfg w modules requirements registered).2 = 0 ∧
    (create_virtualenv cfg w modules requirements registered).1 ≠
      Outcome.sentinel (-1) ∧
    (create_virtualenv cfg w modules requirements registered).1 ≠
      Outcome.fatal_creation := by
  have hcond : ¬ (((virtualenv_tool cfg).headD []) ∉ w.existing ∧
      ((virtualenv_tool cfg).headD []) ∉ w.on_path) := by
    rcases htool with h | h
    · exact fun hc => hc.1 h
    · exact fun hc => hc.2 h
  have hred : create_virtualenv cfg w modules requirements registered =
      install_phase cfg modules requirements registered
        (staging_events cfg) := by
    unfold create_virtualenv
    simp only [if_neg hcond, if_pos hpy]
  have hout := install_phase_outcome cfg modules requirements registered
    (staging_events cfg)
  refine ⟨?_, ?_, ?_⟩
  · rw [hred, creation_runs_install_phase, creation_runs_pre]
  · rw [hred]
    rcases hout with h | ⟨e, h⟩ <;> simp [h]
  · rw [hred]
    rcases hout with h | ⟨e, h⟩ <;> simp [h]

/-- Witness for the C4 theorem: a world whose filesystem already holds the
resolved interpreter path and whose system path holds the creation tool
gives zero creation runs and a non-error outcome. -/
theorem create_virtualenv_skips_existing_witness :
    creation_runs
      (create_virtualenv sampleConfig
        { existing := [chars "/build/work/venv/bin/python"],
          on_path := [chars "virtualenv"],
          exec_status := fun _ => 0 }
        [ModuleDecl.bare (chars "mako")] [] []).2 = 0 ∧
    (create_virtualenv sampleConfig
        { existing := [chars "/build/work/venv/bin/python"],
          on_path := [chars "virtualenv"],
          exec_status := fun _ => 0 }
        [ModuleDecl.bare (chars "mako")] [] []).1 ≠
      Outcome.sentinel (-1) ∧
    (create_virtualenv sampleConfig
        { existing := [chars "/build/work/venv/bin/python"],
          on_path := [chars "virtualenv"],
          exec_status := fun _ => 0 }
        [ModuleDecl.bare (chars "mako")] [] []).1 ≠
      Outcome.fatal_creation :=
  create_virtualenv_skips_existing sampleConfig
    { existing := [chars "/build/work/venv/bin/python"],
      on_path := [chars "virtualenv"],
      exec_status := fun _ => 0 }
    [ModuleDecl.bare (chars "mako")] [] []
    (Or.inr (by decide)) (by decide)

/-- C7: when the creation executable neither exists as a file nor resolves
on the system path, create_virtualenv returns the sentinel -1 by a normal
return — an outcome distinct from success and from the fatal-abort
constructors — having invoked nothing. -/
theorem create_virtualenv_tool_missing (cfg : Config) (w : World)
    (modules : List ModuleDecl) (requirements : List Str)
    (registered : List RegisteredModule)
    (h1 : (virtualenv_tool cfg).headD [] ∉ w.existing)
    (h2 : (virtualenv_tool cfg).headD [] ∉ w.on_path) :
    create_virtualenv cfg w modules requirements registered =
      (Outcome.sentinel (-1), []) ∧
    (Outcome.sentinel (-1) ≠ Outcome.ok ∧
      Outcome.sentinel (-1) ≠ Outcome.fatal_creation) := by
  refine ⟨?_, by simp, by simp⟩
  unfold create_virtualenv
  simp only [if_pos (And.intro h1 h2)]

/-- Witness for the C7 theorem: an empty world resolves nothing, so the
call returns the sentinel with no actions performed. -/
theorem create_virtualenv_tool_missing_witness :
    create_virtualenv sampleConfig
      { existing := [], on_path := [], exec_status := fun _ => 0 }
      [] [] [] = (Outcome.sentinel (-1), []) ∧
    (Outcome.sentinel (-1) ≠ Outcome.ok ∧
      Outcome.sentinel (-1) ≠ Outcome.fatal_creation) :=
  create_virtualenv_tool_missing sampleConfig
    { existing := [], on_path := [], exec_status := fun _ => 0 }
    [] [] [] (by decide) (by decide)

/-- Well-formed module declaration: a bare non-empty name, or a dict entry
with a truthy name. -/
def module_wf : ModuleDecl → Bool
  | ModuleDecl.bare name => !name.isEmpty
  | ModuleDecl.detailed name _ _ => truthyOpt name

/-- The no-index decision succeeds whenever find_links is empty or
pip_index is configured. -/
theorem noIndexArgs_ok (cfg : Config)
    (hfl : cfg.find_links = [] ∨ cfg.pip_index.isSome = true) :
    ∃ ni, noIndexArgs cfg = Except.ok ni := by
  by_cases hempty : cfg.find_links.isEmpty
  · exact ⟨[], by simp [noIndexArgs, hempty]⟩
  · rcases hfl with h | h
    · exact absurd (by simp [h]) hempty
    · obtain ⟨b, hb⟩ := Option.isSome_iff_exists.mp h
      exact ⟨if b then [] else [chars "--no-index"],
        by simp [noIndexArgs, hempty, hb]⟩

/-- A well-formed declaration yields exactly one install call, carrying the
declared name, the shared requirements, no editable or no-deps flag, and a
truthy resolved source. -/
theorem module_install_call_wf (cfg : Config) (reqs : List Str)
    (m : ModuleDecl) (h : module_wf m = true) :
    ∃ c : InstallCall, module_install_call cfg reqs m = Except.ok c ∧
      c.module ≠ none ∧ c.requirements = reqs ∧ c.editable = false ∧
      c.no_deps = false ∧
      truthyOpt (if truthyOpt c.module_url then c.module_url else c.module) =
        true := by
  cases m with
  | bare name =>
      have hname : name.isEmpty = false := by
        simpa [module_wf] using h
      refine ⟨_, rfl, by simp, rfl, rfl, rfl, ?_⟩
      by_cases hu : truthyOpt
          (some ((assocLookup cfg.url_overrides name).getD name)) = true
      · simp [hu]
      · have hX : (assocLookup cfg.url_overrides name).getD name = [] := by
          simpa [truthyOpt, List.isEmpty_iff] using hu
        simp [truthyOpt, hX, hname]
  | detailed name url gopts =>
      have ht : truthyOpt name = true := by simpa [module_wf] using h
      obtain ⟨s, hs⟩ : ∃ s, name = some s := by
        cases name with
        | none => simp [truthyOpt] at ht
        | some s => exact ⟨s, rfl⟩
      refine ⟨{ module := name
                module_url := url
                install_method :=
                  if name.getD [] = chars "pywin32" then
                    some (chars "easy_install")
                  else some (chars "pip")
                requirements := reqs
                global_options := gopts
                optional := false
                no_deps := false
                editable := false }, ?_, ?_, rfl, rfl, rfl, ?_⟩
      · simp [module_install_call, ht]
      · rw [hs]
        simp
      · by_cases hu : truthyOpt url = true
        · simp [hu]
        · simp [hu, ht]

/-- Under well-formed declarations the module loop succeeds and emits one
install call per declaration, each call named, with the shared
requirements, non-editable, without no-deps, and with a truthy resolved
source. -/
theorem module_loop_wf (cfg : Config) (reqs : List Str) :
    ∀ ms : List ModuleDecl, (∀ m ∈ ms, module_wf m = true) →
      (module_loop cfg reqs ms).2 = none ∧
      (module_loop cfg reqs ms).1.length = ms.length ∧
      (∀ e ∈ (module_loop cfg reqs ms).1, ∃ c : InstallCall,
        e = Event.install c ∧ c.module ≠ none ∧ c.requirements = reqs ∧
        c.editable = false ∧ c.no_deps = false ∧
        truthyOpt (if truthyOpt c.module_url then c.module_url
          else c.module) = true) := by
  intro ms
  induction ms with
  | nil =>
      intro _
      refine ⟨rfl, rfl, ?_⟩
      intro e he
      cases he
  | cons m rest ih =>
      intro h
      obtain ⟨c, hc, hmod, hreq, hed, hnd, htr⟩ :=
        module_install_call_wf cfg reqs m (h m (by simp))
      obtain ⟨ih1, ih2, ih3⟩ := ih (fun x hx => h x (by simp [hx]))
      refine ⟨?_, ?_, ?_⟩
      · simp [module_loop, hc, ih1]
      · simp [module_loop, hc, ih2]
      · intro e he
        simp only [module_loop, hc] at he
        rcases List.mem_cons.mp he with h1 | h1
        · exact ⟨c, h1, hmod, hreq, hed, hnd, htr⟩
        · exact ih3 e h1

/-- No install call occurs among the preliminary staging events. -/
theorem install_not_in_pre (cfg : Config) (c : InstallCall) :
    Event.install c ∉ staging_events cfg := by
  intro hmem
  unfold staging_events at hmem
  rcases List.mem_append.mp hmem with h | h
  · by_cases hd : cfg.virtualenv_python_dll.isSome
    · rw [if_pos hd] at h
      rcases List.mem_cons.mp h with h2 | h2
      · cases h2
      · cases h2
    · rw [if_neg hd] at h
      cases h
  · obtain ⟨x, _, he⟩ := List.mem_map.mp h
    cases he

/-- The preliminary staging events contain no install event. -/
theorem filter_install_pre (cfg : Config) :
    (staging_events cfg).filter is_install_event = [] := by
  unfold staging_events
  rw [List.filter_append]
  have h1 : (if cfg.virtualenv_python_dll.isSome then [Event.copy_dll]
      else []).filter is_install_event = [] := by
    by_cases hd : cfg.virtualenv_python_dll.isSome
    · simp [hd, is_install_event]
    · simp [hd]
  have h2 : ∀ ls : List Str,
      (ls.map Event.download).filter is_install_event = [] := by
    intro ls
    induction ls with
    | nil => rfl
    | cons a rest ih => simp [is_install_event, ih]
  rw [h1, h2]
  rfl

/-- With a non-empty effective module list of well-formed declarations and
no registered modules, the install phase succeeds and its actions are the
preceding events, one install per module, and the final freeze query — in
particular no standalone requirements-only install. -/
theorem install_phase_wf_events (cfg : Config) (modules : List ModuleDecl)
    (reqs : List Str) (pre : List Event)
    (hm : (if modules.isEmpty then cfg.virtualenv_modules else modules) ≠ [])
    (hwf : ∀ m ∈ (if modules.isEmpty then cfg.virtualenv_modules
      else modules), module_wf m = true) :
    install_phase cfg modules reqs [] pre =
      (Outcome.ok,
        pre ++ (module_loop cfg
          (if reqs.isEmpty then cfg.virtualenv_requirements else reqs)
          (if modules.isEmpty then cfg.virtualenv_modules
            else modules)).1 ++ [Event.freeze]) := by
  obtain ⟨hl1, _, _⟩ := module_loop_wf cfg
    (if reqs.isEmpty then cfg.virtualenv_requirements else reqs)
    (if modules.isEmpty then cfg.virtualenv_modules else modules) hwf
  unfold install_phase
  simp only [hl1]
  by_cases hroc :
      ((if modules.isEmpty then cfg.virtualenv_modules
        else modules).isEmpty ∧
       ¬ (if reqs.isEmpty then cfg.virtualenv_requirements
         else reqs).isEmpty)
  · exact absurd (by simpa [List.isEmpty_iff] using hroc.1) hm
  · simp only [if_neg hroc, registered_events]
    simp

/-- C9: with a non-empty effective module list and a non-empty effective
requirements list (and no registered modules), create_virtualenv installs
the requirements in no separate standalone step: every install call it
performs names a module and carries the entire requirements list, there is
exactly one install call per declared module, and every such call on the
pip path builds a command repeating one `-r` pair per requirements file
with the module's own resolved source as the final element. -/
theorem requirements_joined_to_module_installs (cfg : Config) (w : World)
    (modules : List ModuleDecl) (requirements : List Str)
    (htool : (virtualenv_tool cfg).headD [] ∈ w.existing ∨
      (virtualenv_tool cfg).headD [] ∈ w.on_path)
    (hpy : resolve_python_path cfg (chars "python") ∈ w.existing)
    (hm : (if modules.isEmpty then cfg.virtualenv_modules else modules) ≠ [])
    (hreq : (if requirements.isEmpty then cfg.virtualenv_requirements
      else requirements) ≠ [])
    (hwf : ∀ m ∈ (if modules.isEmpty then cfg.virtualenv_modules
      else modules), module_wf m = true)
    (hfl : cfg.find_links = [] ∨ cfg.pip_index.isSome = true) :
    (∀ c : InstallCall,
      Event.install c ∈
          (create_virtualenv cfg w modules requirements []).2 →
        c.module ≠ none ∧
        c.requirements ≠ [] ∧
        c.requirements = (if requirements.isEmpty then
          cfg.virtualenv_requirements else requirements) ∧
        (isPipMethod c.install_method = true →
          ∃ A B u, build_install_command cfg c.module c.module_url
              c.requirements c.global_options c.no_deps c.editable
              c.install_method =
            Except.ok (A ++ reqArgs c.requirements ++ B ++ [u]))) ∧
    ((create_virtualenv cfg w modules requirements []).2.filter
        is_install_event).length =
      (if modules.isEmpty then cfg.virtualenv_modules
        else modules).length := by
  have hcond : ¬ (((virtualenv_tool cfg).headD []) ∉ w.existing ∧
      ((virtualenv_tool cfg).headD []) ∉ w.on_path) := by
    rcases htool with h | h
    · exact fun hc => hc.1 h
    · exact fun hc => hc.2 h
  have hred : create_virtualenv cfg w modules requirements [] =
      install_phase cfg modules requirements [] (staging_events cfg) := by
    unfold create_virtualenv
    simp only [if_neg hcond, if_pos hpy]
  obtain ⟨hl1, hl2, hl3⟩ := module_loop_wf cfg
    (if requirements.isEmpty then cfg.virtualenv_requirements
      else requirements)
    (if modules.isEmpty then cfg.virtualenv_modules else modules) hwf
  rw [hred, install_phase_wf_events cfg modules requirements
    (staging_events cfg) hm hwf]
  constructor
  · intro c hc
    have hcl : Event.install c ∈ (module_loop cfg
        (if requirements.isEmpty then cfg.virtualenv_requirements
          else requirements)
        (if modules.isEmpty then cfg.virtualenv_modules
          else modules)).1 := by
      rcases List.mem_append.mp hc with h | h
      · rcases List.mem_append.mp h with h2 | h2
        · exact absurd h2 (install_not_in_pre cfg c)
        · exact h2
      · rcases List.mem_cons.mp h with h2 | h2
        · cases h2
        · cases h2
    obtain ⟨c2, hce, hmod, hreqs, hed, hnd, htr⟩ := hl3 _ hcl
    have hcc : c = c2 := by
      injection hce
    subst hcc
    refine ⟨hmod, by rw [hreqs]; exact hreq, hreqs, ?_⟩
    intro hpip
    obtain ⟨ni, hni⟩ := noIndexArgs_ok cfg hfl
    have hshape := build_pip_ok_shape cfg c.module c.module_url
      c.requirements c.global_options c.no_deps c.editable c.install_method
      ni hpip (Or.inl htr) hni
    refine ⟨pipPrefix cfg c.no_deps,
      ni ++ globalOptionArgs c.global_options ++ findLinksArgs cfg,
      (if truthyOpt c.module_url then c.module_url else c.module).getD [],
      ?_⟩
    rw [hshape]
    have htail : buildTail c.module c.module_url c.editable =
        [(if truthyOpt c.module_url then c.module_url
          else c.module).getD []] := by
      rw [hed]
      simp [buildTail, htr]
    rw [htail]
    simp [List.append_assoc]
  · rw [List.filter_append, List.filter_append, filter_install_pre]
    have hloopfilter : ((module_loop cfg
        (if requirements.isEmpty then cfg.virtualenv_requirements
          else requirements)
        (if modules.isEmpty then cfg.virtualenv_modules
          else modules)).1.filter is_install_event) =
        (module_loop cfg
          (if requirements.isEmpty then cfg.virtualenv_requirements
            else requirements)
          (if modules.isEmpty then cfg.virtualenv_modules
            else modules)).1 := by
      apply List.filter_eq_self.mpr
      intro e he
      obtain ⟨c2, hce, _⟩ := hl3 e he
      rw [hce]
      rfl
    rw [hloopfilter]
    have hfz : ([Event.freeze].filter is_install_event) = [] := rfl
    rw [hfz]
    simp only [List.nil_append, List.append_nil]
    exact hl2

/-- Witness for the C9 theorem: one declared module and one requirements
file in an already-created environment give install calls that all carry
the requirements list, one call in total. -/
theorem requirements_joined_to_module_installs_witness :
    (∀ c : InstallCall,
      Event.install c ∈
          (create_virtualenv sampleConfig
            { existing := [chars "/build/work/venv/bin/python"],
              on_path := [chars "virtualenv"],
              exec_status := fun _ => 0 }
            [ModuleDecl.bare (chars "mako")] [chars "/r/base.txt"] []).2 →
        c.module ≠ none ∧
        c.requirements ≠ [] ∧
        c.requirements = (if ([chars "/r/base.txt"] : List Str).isEmpty then
          sampleConfig.virtualenv_requirements else [chars "/r/base.txt"]) ∧
        (isPipMethod c.install_method = true →
          ∃ A B u, build_install_command sampleConfig c.module c.module_url
              c.requirements c.global_options c.no_deps c.editable
              c.install_method =
            Except.ok (A ++ reqArgs c.requirements ++ B ++ [u]))) ∧
    ((create_virtualenv sampleConfig
        { existing := [chars "/build/work/venv/bin/python"],
          on_path := [chars "virtualenv"],
          exec_status := fun _ => 0 }
        [ModuleDecl.bare (chars "mako")] [chars "/r/base.txt"] []).2.filter
      is_install_event).length =
      (if ([ModuleDecl.bare (chars "mako")] : List ModuleDecl).isEmpty then
        sampleConfig.virtualenv_modules
        else [ModuleDecl.bare (chars "mako")]).length :=
  requirements_joined_to_module_installs sampleConfig
    { existing := [chars "/build/work/venv/bin/python"],
      on_path := [chars "virtualenv"],
      exec_status := fun _ => 0 }
    [ModuleDecl.bare (chars "mako")] [chars "/r/base.txt"]
    (Or.inr (by decide)) (by decide) (by decide) (by decide) (by decide)
    (Or.inl (by decide))

end Virtualenv
